import Mathlib

/-!
Verification of the agent delegation and execution tool
(`backend/agent/tools/agent_execution_tool.py`).

The Python code is shallowly embedded: text is modelled as `List Char`
(one entry per character, as Python indexes strings), the record store
(threads, messages, agent runs, workflows, agents) as lists of records,
wall-clock timestamps as integers (ISO-8601 UTC strings compare
chronologically, so integer comparison is faithful), and every
environmental input of an operation (generated UUIDs, store-assigned
row ids, clock reads, whether the awaited background task finished
inside the timeout, availability of optional services) as an explicit
parameter.  Fallible paths return the same error strings the source
builds.
-/

/-! ## Python string primitives -/

/-- The ASCII whitespace Python `str.strip()` removes: space, tab,
newline, carriage return, vertical tab, form feed (exotic Unicode
whitespace is out of scope for this module). -/
def pyIsSpace (c : Char) : Bool :=
  c == ' ' || c == '\t' || c == '\n' || c == '\r' ||
  c == Char.ofNat 11 || c == Char.ofNat 12

/-- Python `s.strip()`: drop leading and trailing whitespace. -/
def pyStrip (l : List Char) : List Char :=
  ((l.dropWhile pyIsSpace).reverse.dropWhile pyIsSpace).reverse

/-- Python `s.split('\n')`: split on every newline, keeping empty pieces;
on the empty string it yields one empty piece. -/
def splitNl : List Char → List (List Char)
  | [] => [[]]
  | c :: cs =>
    match splitNl cs with
    | [] => [[]]
    | l :: ls => if c == '\n' then [] :: l :: ls else (c :: l) :: ls

/-- Python `'\n'.join(pieces)`. -/
def joinNl : List (List Char) → List Char
  | [] => []
  | [l] => l
  | l :: ls => l ++ '\n' :: joinNl ls

/-- Whether the first list starts the second (Python `startswith`). -/
def startsWith : List Char → List Char → Bool
  | [], _ => true
  | _ :: _, [] => false
  | p :: ps, c :: cs => p == c && startsWith ps cs

/-- Python `pat in s`: contiguous substring containment. -/
def containsL : List Char → List Char → Bool
  | [], pat => pat.isEmpty
  | c :: cs, pat => startsWith pat (c :: cs) || containsL cs pat

/-- Substring containment on `String` (Python `pat in s`). -/
def containsS (s pat : String) : Bool := containsL s.toList pat.toList

/-- Python `s[-n:]` for `0 < n ≤ len(s)`: the trailing `n` characters
(also correct for `n ≥ len(s)`, where the whole string is kept). -/
def takeLast (l : List Char) (n : Nat) : List Char := l.drop (l.length - n)

/-- Python `list.index(x)`: index of the first occurrence, if any. -/
def firstIndexOf : List (List Char) → List Char → Option Nat
  | [], _ => none
  | a :: rest, x => if a == x then some 0 else (firstIndexOf rest x).map (· + 1)

/-! ## ResultExtractor (`_extract_last_message`, `_truncate_from_end`) -/

/-- `line.startswith('#')`. -/
def startsWithHash : List Char → Bool
  | '#' :: _ => true
  | _ => false

/-- The characters of a Markdown code fence opener. -/
def fenceChars : List Char := "```".toList

/-- `line.startswith('```')`. -/
def startsWithFence (l : List Char) : Bool := startsWith fenceChars l

/-- The loop guard of `_extract_last_message`: a non-empty line that is
neither a heading nor a code fence. -/
def isSubstantialLine (l : List Char) : Bool :=
  !(pyStrip l).isEmpty && !startsWithHash l && !startsWithFence l

/-- `AgentExecutionTool._extract_last_message`.  Empty or whitespace-only
output short-circuits; otherwise the stripped output is split into lines,
scanned from the end for the first substantial line; on a hit the code
takes `lines.index(line)` — the index of the FIRST occurrence of that
line's text — backs up 3 lines and joins everything from there on
(Python `max(0, i - 3)` equals truncated subtraction `i - 3` on `Nat`;
the `except ValueError` arm returns the stripped line).  With no hit it
falls back to `full_output[-len(full_output)//5:]` — Python floor
division on the negated length keeps the trailing `⌈len/5⌉` characters —
stripped, when the output exceeds 100 characters, else the output. -/
def extract_last_message (full_output : List Char) : List Char :=
  if (pyStrip full_output).isEmpty then "No output received".toList
  else
    let lines := splitNl (pyStrip full_output)
    match lines.reverse.find? isSubstantialLine with
    | some line =>
      match firstIndexOf lines line with
      | some i => pyStrip (joinNl (lines.drop (i - 3)))
      | none => pyStrip line
    | none =>
      if 100 < full_output.length then
        pyStrip (takeLast full_output ((full_output.length + 4) / 5))
      else full_output

/-- The truncation banner `f"...[truncated {n} characters]...\n"`. -/
def elisionMarker (n : Nat) : List Char :=
  "...[truncated ".toList ++ (Nat.repr n).toList ++ " characters]...\n".toList

/-- `AgentExecutionTool._truncate_from_end`: non-positive budgets yield
the empty string; text within `max_tokens * 4` characters is returned
unchanged; longer text keeps its trailing `max_tokens * 4` characters
behind a banner counting the elided characters. -/
def truncate_from_end (text : List Char) (maxTokens : Int) : List Char :=
  if maxTokens ≤ 0 then []
  else if (text.length : Int) ≤ maxTokens * 4 then text
  else
    elisionMarker (text.length - (maxTokens * 4).toNat) ++
      takeLast text (maxTokens * 4).toNat

/-! ## ModelResolver (`_get_fallback_model`) -/

/-- The fixed fallback model of `_get_fallback_model`. -/
def fallbackModel : String := "openrouter/google/gemini-2.5-flash"

/-- ASCII lowercasing of one character, as Python `str.lower()` does on
the ASCII range the provider names live in. -/
def pyToLower (c : Char) : Char :=
  if 'A' ≤ c ∧ c ≤ 'Z' then Char.ofNat (c.toNat + 32) else c

/-- Python `s.lower()`. -/
def pyLower (l : List Char) : List Char := l.map pyToLower

/-- The validation in `_get_fallback_model`: the lowercased request
mentions one of the recognised provider families. -/
def recognizedProvider (r : String) : Bool :=
  containsL (pyLower r.toList) "openrouter".toList ||
  containsL (pyLower r.toList) "anthropic".toList ||
  containsL (pyLower r.toList) "openai".toList ||
  containsL (pyLower r.toList) "google".toList

/-- `AgentExecutionTool._get_fallback_model`.  Python truthiness of the
requested string (absent or empty falls through) followed by the
provider check; anything unvalidated degrades to `fallbackModel`. -/
def get_fallback_model (requestedModel : Option String) : String :=
  match requestedModel with
  | some r => if !r.toList.isEmpty && recognizedProvider r then r else fallbackModel
  | none => fallbackModel

/-! ## Helper lemmas about the string primitives -/

theorem startsWith_append (p l m : List Char) (h : startsWith p l = true) :
    startsWith p (l ++ m) = true := by
  induction p generalizing l with
  | nil => simp [startsWith]
  | cons pc ps ih =>
    cases l with
    | nil => simp [startsWith] at h
    | cons c cs =>
      simp only [startsWith, Bool.and_eq_true] at h
      simpa [startsWith, h.1] using ih cs h.2

theorem containsL_nil_pat (l : List Char) : containsL l [] = true := by
  cases l <;> simp [containsL, startsWith]

theorem containsL_append_left (l m p : List Char) (h : containsL l p = true) :
    containsL (l ++ m) p = true := by
  induction l with
  | nil =>
    simp only [containsL, List.isEmpty_iff] at h
    subst h
    simpa using containsL_nil_pat m
  | cons c cs ih =>
    simp only [containsL, Bool.or_eq_true] at h ⊢
    rcases h with h | h
    · exact Or.inl (startsWith_append p (c :: cs) m h)
    · exact Or.inr (ih h)

theorem containsL_append_right (l m p : List Char) (h : containsL m p = true) :
    containsL (l ++ m) p = true := by
  induction l with
  | nil => simpa using h
  | cons c cs ih =>
    simp only [List.cons_append, containsL, Bool.or_eq_true]
    exact Or.inr ih

theorem containsL_of_startsWith (l p : List Char) (h : startsWith p l = true) :
    containsL l p = true := by
  cases l with
  | nil =>
    cases p with
    | nil => rfl
    | cons pc ps => simp [startsWith] at h
  | cons c cs => simp [containsL, h]

/-! ## Claims about the ResultExtractor and ModelResolver -/

/-- Claim C5: model resolution (`_get_fallback_model`) is a pure, total
function: a requested name matching a recognised provider-family pattern
passes through unchanged; every other input, including an absent one,
yields the one fixed default model; being a Lean function it is
deterministic and never fails. -/
theorem claim_C5 (r : String) :
    (recognizedProvider r = true → get_fallback_model (some r) = r) ∧
    (recognizedProvider r = false → get_fallback_model (some r) = fallbackModel) ∧
    get_fallback_model none = fallbackModel := by
  refine ⟨fun hrec => ?_, fun hrec => ?_, rfl⟩
  · have hne : r.toList.isEmpty = false := by
      cases hl : r.toList with
      | nil =>
        rw [recognizedProvider.eq_def, hl] at hrec
        simp [pyLower, containsL] at hrec
      | cons c cs => rfl
    have hcond : (!r.toList.isEmpty && recognizedProvider r) = true := by
      rw [hne, hrec]; rfl
    have hif : get_fallback_model (some r)
        = if !r.toList.isEmpty && recognizedProvider r then r else fallbackModel := rfl
    rw [hif, if_pos hcond]
  · have hcond : (!r.toList.isEmpty && recognizedProvider r) = false := by
      rw [hrec]; simp
    have hif : get_fallback_model (some r)
        = if !r.toList.isEmpty && recognizedProvider r then r else fallbackModel := rfl
    rw [hif, if_neg (by rw [hcond]; exact Bool.false_ne_true)]

/-- Claim C5 witness: a recognised request passes through; an
unrecognised one degrades to the default. -/
theorem claim_C5_witness :
    (recognizedProvider "openrouter/x" = true ∧
      get_fallback_model (some "openrouter/x") = "openrouter/x") ∧
    (recognizedProvider "llama-local" = false ∧
      get_fallback_model (some "llama-local") = fallbackModel) :=
  ⟨⟨by decide, (claim_C5 "openrouter/x").1 (by decide)⟩,
   ⟨by decide, (claim_C5 "llama-local").2.1 (by decide)⟩⟩

/-- Claim C6: for every text and positive token budget, full-mode
truncation (`_truncate_from_end`) returns the text unchanged when it
fits in `budget*4` characters; otherwise it returns exactly the elision
banner (carrying the count of elided characters) followed by the
trailing `budget*4` characters; the trailing `budget*4` characters are
always a suffix of the source, and the output length never exceeds
`budget*4` plus the banner's length. -/
theorem claim_C6 (text : List Char) (budget : Int) (hb : 0 < budget) :
    ((text.length : Int) ≤ budget * 4 → truncate_from_end text budget = text) ∧
    (budget * 4 < (text.length : Int) →
      truncate_from_end text budget
        = elisionMarker (text.length - (budget * 4).toNat) ++
            takeLast text (budget * 4).toNat ∧
      (takeLast text (budget * 4).toNat).length = (budget * 4).toNat) ∧
    takeLast text (budget * 4).toNat <:+ text ∧
    (truncate_from_end text budget).length
      ≤ (budget * 4).toNat +
          (elisionMarker (text.length - (budget * 4).toNat)).length := by
  have hb0 : ¬ budget ≤ 0 := by omega
  refine ⟨fun hfit => ?_, fun hbig => ?_, ?_, ?_⟩
  · rw [truncate_from_end, if_neg hb0, if_pos hfit]
  · refine ⟨by rw [truncate_from_end, if_neg hb0, if_neg (by omega)], ?_⟩
    have hle : (budget * 4).toNat ≤ text.length := by omega
    simp [takeLast]
    omega
  · exact ⟨text.take (text.length - (budget * 4).toNat), List.take_append_drop _ _⟩
  · by_cases hfit : (text.length : Int) ≤ budget * 4
    · rw [truncate_from_end, if_neg hb0, if_pos hfit]
      have : text.length ≤ (budget * 4).toNat := by omega
      omega
    · rw [truncate_from_end, if_neg hb0, if_neg hfit]
      simp [takeLast]
      omega

/-- Claim C6 witness: a 10-character text under a budget of 1 token
keeps exactly its trailing 4 characters behind the banner. -/
theorem claim_C6_witness :
    truncate_from_end "abcdefghij".toList 1
      = elisionMarker ("abcdefghij".toList.length - ((1 : Int) * 4).toNat) ++
          takeLast "abcdefghij".toList ((1 : Int) * 4).toNat :=
  ((claim_C6 "abcdefghij".toList 1 (by decide)).2.1 (by decide)).1

/-- Claim C10: an empty or whitespace-only transcript makes
`_extract_last_message` return the fixed string "No output received". -/
theorem claim_C10 (t : List Char) (h : pyStrip t = []) :
    extract_last_message t = "No output received".toList := by
  rw [extract_last_message, if_pos (by rw [h]; rfl)]

/-- Claim C10 witness: a whitespace-only transcript. -/
theorem claim_C10_witness :
    pyStrip " \t\n ".toList = [] ∧
    extract_last_message " \t\n ".toList = "No output received".toList :=
  ⟨by decide, claim_C10 " \t\n ".toList (by decide)⟩

/-- Claim C7 counterexample: on `"x\nb\nc\nd\ne\nx"` the last
substantial line is the final `"x"`, but `lines.index` finds the FIRST
occurrence of that text (index 0), so the whole six-line transcript is
returned — five preceding lines of context, not at most three. -/
theorem claim_C7_counterexample :
    extract_last_message "x\nb\nc\nd\ne\nx".toList = "x\nb\nc\nd\ne\nx".toList ∧
    (splitNl (extract_last_message "x\nb\nc\nd\ne\nx".toList)).length = 6 := by
  constructor <;> decide

/-! ## Scan lemmas for the last-message extractor -/

theorem find_eq_some_spec {α : Type} (p : α → Bool) :
    ∀ (l : List α) (x : α), l.find? p = some x →
      ∃ n, ∃ hn : n < l.length, l.get ⟨n, hn⟩ = x ∧ p x = true ∧
        ∀ j (hj : j < l.length), j < n → p (l.get ⟨j, hj⟩) = false := by
  intro l
  induction l with
  | nil => intro x h; simp at h
  | cons a t ih =>
    intro x h
    by_cases hpa : p a = true
    · rw [List.find?_cons_of_pos _ hpa] at h
      obtain rfl : a = x := by injection h
      exact ⟨0, by simp, rfl, hpa,
        fun j hj hj0 => absurd hj0 (Nat.not_lt_zero j)⟩
    · rw [List.find?_cons_of_neg _ hpa] at h
      obtain ⟨n, hn, hget, hpx, hbefore⟩ := ih x h
      refine ⟨n + 1, by simpa using Nat.succ_lt_succ hn, hget, hpx, ?_⟩
      intro j hj hjlt
      cases j with
      | zero => simpa using hpa
      | succ k =>
        have hk : k < t.length := by simpa using hj
        exact hbefore k hk (Nat.lt_of_succ_lt_succ hjlt)

theorem reverse_find_spec {α : Type} (p : α → Bool) (l : List α) (x : α)
    (h : l.reverse.find? p = some x) :
    ∃ k, ∃ hk : k < l.length, l.get ⟨k, hk⟩ = x ∧ p x = true ∧
      ∀ j (hj : j < l.length), k < j → p (l.get ⟨j, hj⟩) = false := by
  obtain ⟨n, hn, hget, hpx, hbefore⟩ := find_eq_some_spec p l.reverse x h
  have hnl : n < l.length := by simpa using hn
  refine ⟨l.length - 1 - n, by omega, ?_, hpx, ?_⟩
  · rw [List.get_reverse' l ⟨n, hn⟩ (by simp; omega)] at hget
    exact hget
  · intro j hj hgt
    have hj2 : l.length - 1 - j < l.reverse.length := by simp; omega
    have hjn : l.length - 1 - j < n := by omega
    have hb := hbefore (l.length - 1 - j) hj2 hjn
    rw [List.get_reverse l j hj2 hj] at hb
    exact hb

theorem firstIndexOf_spec :
    ∀ (ls : List (List Char)) (x : List Char) (n : Nat),
      firstIndexOf ls x = some n →
      ∃ hn : n < ls.length, ls.get ⟨n, hn⟩ = x ∧
        ∀ j (hj : j < ls.length), j < n → ls.get ⟨j, hj⟩ ≠ x := by
  intro ls
  induction ls with
  | nil => intro x n h; simp [firstIndexOf] at h
  | cons a t ih =>
    intro x n h
    by_cases hax : (a == x) = true
    · rw [firstIndexOf, if_pos hax] at h
      obtain rfl : (0 : Nat) = n := by injection h
      exact ⟨by simp, eq_of_beq hax,
        fun j hj hj0 => absurd hj0 (Nat.not_lt_zero j)⟩
    · rw [firstIndexOf, if_neg hax] at h
      obtain ⟨m, hm, rfl⟩ : ∃ m, firstIndexOf t x = some m ∧ n = m + 1 := by
        cases hfi : firstIndexOf t x with
        | none => rw [hfi] at h; simp at h
        | some m =>
          rw [hfi] at h
          simp only [Option.map_some'] at h
          exact ⟨m, rfl, by injection h with h2; omega⟩
      obtain ⟨hmt, hget, hbefore⟩ := ih x m hm
      refine ⟨by simpa using Nat.succ_lt_succ hmt, hget, ?_⟩
      intro j hj hjlt
      cases j with
      | zero =>
        intro hcontra
        exact hax (beq_iff_eq.mpr hcontra)
      | succ k =>
        have hk : k < t.length := by simpa using hj
        exact hbefore k hk (Nat.lt_of_succ_lt_succ hjlt)

theorem firstIndexOf_isSome (x : List Char) :
    ∀ ls : List (List Char), x ∈ ls → (firstIndexOf ls x).isSome = true := by
  intro ls
  induction ls with
  | nil => intro h; simp at h
  | cons a t ih =>
    intro h
    by_cases hax : (a == x) = true
    · simp [firstIndexOf, hax]
    · have hx : x ∈ t := by
        rcases List.mem_cons.mp h with rfl | hxt
        · exact absurd (beq_iff_eq.mpr rfl) hax
        · exact hxt
      rcases Option.isSome_iff_exists.mp (ih hx) with ⟨m, hm⟩
      simp [firstIndexOf, hax, hm]

/-- Claim C7 (amended): last-message extraction scans the lines of the
stripped transcript from the end for the first non-empty line that does
not start a heading or code fence.  When such a line exists at last
index `k`, the code then locates the FIRST index `i` whose line equals
that line's text (`lines.index`), and returns the strip of the join of
ALL lines from `max(0, i - 3)` to the end of the transcript — so when
the found text recurs earlier, more than 3 preceding lines are
included, and any non-substantial lines after the found line are
included as well.  When no such line exists, it returns the stripped
trailing `⌈len/5⌉` characters of the transcript when the transcript
exceeds 100 characters, and otherwise the transcript unchanged. -/
theorem claim_C7_amended (t : List Char) (L : List (List Char))
    (hne : (pyStrip t).isEmpty = false)
    (hL : L = splitNl (pyStrip t)) :
    (L.any isSubstantialLine = true →
      ∃ k i, ∃ hk : k < L.length, ∃ hi : i < L.length,
        isSubstantialLine (L.get ⟨k, hk⟩) = true ∧
        (∀ j (hj : j < L.length), k < j →
          isSubstantialLine (L.get ⟨j, hj⟩) = false) ∧
        L.get ⟨i, hi⟩ = L.get ⟨k, hk⟩ ∧
        (∀ j (hj : j < L.length), j < i → L.get ⟨j, hj⟩ ≠ L.get ⟨k, hk⟩) ∧
        i ≤ k ∧
        extract_last_message t = pyStrip (joinNl (L.drop (i - 3)))) ∧
    (L.any isSubstantialLine = false →
      (100 < t.length →
        extract_last_message t = pyStrip (takeLast t ((t.length + 4) / 5))) ∧
      (t.length ≤ 100 → extract_last_message t = t)) := by
  subst hL
  constructor
  · intro hany
    have hsome : ((splitNl (pyStrip t)).reverse.find? isSubstantialLine).isSome := by
      rw [List.find?_isSome]
      obtain ⟨y, hy, hp⟩ := List.any_eq_true.mp hany
      exact ⟨y, List.mem_reverse.mpr hy, hp⟩
    obtain ⟨line, hfind⟩ := Option.isSome_iff_exists.mp hsome
    obtain ⟨k, hk, hgetk, hpk, hafter⟩ :=
      reverse_find_spec isSubstantialLine (splitNl (pyStrip t)) line hfind
    have hmem : line ∈ splitNl (pyStrip t) := hgetk ▸ List.get_mem _ _ _
    obtain ⟨i, hio⟩ :=
      Option.isSome_iff_exists.mp (firstIndexOf_isSome line _ hmem)
    obtain ⟨hi, hgeti, hbefore⟩ := firstIndexOf_spec _ line i hio
    have hik : i ≤ k := by
      by_contra hc
      exact hbefore k hk (by omega) hgetk
    have hext : extract_last_message t
        = pyStrip (joinNl ((splitNl (pyStrip t)).drop (i - 3))) := by
      rw [extract_last_message, if_neg (by rw [hne]; exact Bool.false_ne_true)]
      simp only [hfind, hio]
    refine ⟨k, i, hk, hi, ?_, ?_, ?_, ?_, hik, hext⟩
    · rw [hgetk]; exact hpk
    · intro j hj hkj; exact hafter j hj hkj
    · rw [hgeti, hgetk]
    · intro j hj hji
      rw [hgetk]
      exact hbefore j hj hji
  · intro hnone
    have hfind : (splitNl (pyStrip t)).reverse.find? isSubstantialLine = none := by
      cases hf : (splitNl (pyStrip t)).reverse.find? isSubstantialLine with
      | none => rfl
      | some y =>
        have hpy := List.find?_some hf
        have hmy := List.mem_reverse.mp (List.mem_of_find?_eq_some hf)
        have : (splitNl (pyStrip t)).any isSubstantialLine = true :=
          List.any_eq_true.mpr ⟨y, hmy, hpy⟩
        rw [this] at hnone
        cases hnone
    constructor
    · intro h100
      rw [extract_last_message, if_neg (by rw [hne]; exact Bool.false_ne_true)]
      simp only [hfind]
      rw [if_pos h100]
    · intro h100
      rw [extract_last_message, if_neg (by rw [hne]; exact Bool.false_ne_true)]
      simp only [hfind]
      rw [if_neg (by omega)]

/-- Claim C7 (amended) witness: a transcript of only heading lines
falls back to being returned unchanged; on `"x\nb\nc\nd\ne\nx"` the
last substantial line is at index 5, its text first occurs at index 0,
and the extractor returns the join of all six lines. -/
theorem claim_C7_amended_witness :
    extract_last_message "#a".toList = "#a".toList ∧
    ∃ k i, ∃ hk : k < (splitNl (pyStrip "x\nb\nc\nd\ne\nx".toList)).length,
      ∃ hi : i < (splitNl (pyStrip "x\nb\nc\nd\ne\nx".toList)).length,
      isSubstantialLine ((splitNl (pyStrip "x\nb\nc\nd\ne\nx".toList)).get ⟨k, hk⟩) = true ∧
      (∀ j (hj : j < (splitNl (pyStrip "x\nb\nc\nd\ne\nx".toList)).length), k < j →
        isSubstantialLine ((splitNl (pyStrip "x\nb\nc\nd\ne\nx".toList)).get ⟨j, hj⟩) = false) ∧
      (splitNl (pyStrip "x\nb\nc\nd\ne\nx".toList)).get ⟨i, hi⟩
        = (splitNl (pyStrip "x\nb\nc\nd\ne\nx".toList)).get ⟨k, hk⟩ ∧
      (∀ j (hj : j < (splitNl (pyStrip "x\nb\nc\nd\ne\nx".toList)).length), j < i →
        (splitNl (pyStrip "x\nb\nc\nd\ne\nx".toList)).get ⟨j, hj⟩
          ≠ (splitNl (pyStrip "x\nb\nc\nd\ne\nx".toList)).get ⟨k, hk⟩) ∧
      i ≤ k ∧
      extract_last_message "x\nb\nc\nd\ne\nx".toList
        = pyStrip (joinNl ((splitNl (pyStrip "x\nb\nc\nd\ne\nx".toList)).drop (i - 3))) :=
  ⟨((claim_C7_amended "#a".toList _ (by decide) rfl).2 (by decide)).2 (by decide),
   (claim_C7_amended "x\nb\nc\nd\ne\nx".toList _ (by decide) rfl).1 (by decide)⟩

/-! ## Data model: records of the stores the tool touches -/

/-- The statuses an `agent_runs` row takes in this module. -/
inductive RunStatus where
  | running
  | completed
  | failed
deriving DecidableEq, Repr

/-- The string stored in the `status` column. -/
def statusStr : RunStatus → String
  | .running => "running"
  | .completed => "completed"
  | .failed => "failed"

/-- A row of the `agents` table (the columns this module reads). -/
structure AgentRecord where
  agentId : String
  accountId : String
deriving DecidableEq, Repr

/-- A row of the `agent_workflows` table (the columns this module reads). -/
structure Workflow where
  id : String
  agentId : String
  name : String
  description : Option String
  status : String
deriving DecidableEq, Repr

/-- A row of the `threads` table (the columns this module writes). -/
structure Thread where
  threadId : String
  accountId : String
  projectId : String
deriving DecidableEq, Repr

/-- A row of the `messages` table; list order stands for `created_at`
order, which is insertion order here. -/
structure Message where
  messageId : String
  threadId : String
  content : String
  msgType : String
deriving DecidableEq, Repr

/-- A row of the `agent_runs` table.  `metaTimeout` is the timeout the
run records in its metadata at creation. -/
structure AgentRun where
  id : Nat
  threadId : String
  agentId : String
  accountId : String
  status : RunStatus
  startedAt : Int
  completedAt : Option Int
  errorMessage : Option String
  metaTimeout : Int
deriving DecidableEq, Repr

/-- The record store (the Supabase tables this module touches).
Queries are list filters and lookups; inserts append; updates map. -/
structure Store where
  agents : List AgentRecord
  workflows : List Workflow
  threads : List Thread
  messages : List Message
  runs : List AgentRun
deriving DecidableEq, Repr

/-! ## Finalize operations (`_mark_agent_run_as_failed`,
`cleanup_stuck_agent_run`, `cleanup_stuck_agent_runs_by_timeout`) -/

/-- `AgentExecutionTool._mark_agent_run_as_failed`: an UNCONDITIONAL
update of the row(s) with the given id to status=failed, the given
error message, and a completion time of now — no check of the current
status. -/
def mark_agent_run_as_failed (st : Store) (agentRunId : Nat)
    (errorMessage : String) (now : Int) : Store :=
  { st with runs := st.runs.map fun r =>
      if r.id == agentRunId then
        { r with status := RunStatus.failed,
                 errorMessage := some errorMessage,
                 completedAt := some now }
      else r }

/-- `AgentExecutionTool.cleanup_stuck_agent_run`: a missing run yields
`false`; an already terminal run yields `true` without writing;
otherwise the run is marked failed with the fixed stuck message. -/
def cleanup_stuck_agent_run (st : Store) (agentRunId : Nat) (now : Int) :
    Store × Bool :=
  match st.runs.find? (fun r => r.id == agentRunId) with
  | none => (st, false)
  | some run =>
    if run.status = RunStatus.completed ∨ run.status = RunStatus.failed then
      (st, true)
    else
      (mark_agent_run_as_failed st agentRunId
        "Agent run was stuck and cleaned up" now, true)

/-- The standardized sweep message
`f'Agent run timed out after {timeout_minutes} minutes'`. -/
def sweepErrMsg (timeoutMinutes : Int) : String :=
  "Agent run timed out after " ++ toString timeoutMinutes ++ " minutes"

/-- The selection of `cleanup_stuck_agent_runs_by_timeout`: same
account, status running, started strictly before the cutoff. -/
def isStuckRun (accountId : String) (cutoff : Int) (r : AgentRun) : Bool :=
  r.accountId == accountId && decide (r.status = RunStatus.running) &&
    decide (r.startedAt < cutoff)

/-- The per-run update the sweep writes. -/
def sweepFail (timeoutMinutes now : Int) (r : AgentRun) : AgentRun :=
  { r with status := RunStatus.failed,
           errorMessage := some (sweepErrMsg timeoutMinutes),
           completedAt := some now }

/-- `AgentExecutionTool.cleanup_stuck_agent_runs_by_timeout`: select the
stuck runs of the account, early-return 0 when none, else update each
selected run by id and return how many were updated. -/
def cleanup_stuck_agent_runs_by_timeout (st : Store) (accountId : String)
    (timeoutMinutes : Int) (now : Int) : Store × Nat :=
  let cutoff := now - timeoutMinutes * 60
  let stuckRuns := st.runs.filter (isStuckRun accountId cutoff)
  if stuckRuns.isEmpty then (st, 0)
  else
    let newRuns := stuckRuns.foldl
      (fun runs r => runs.map fun x =>
        if x.id == r.id then sweepFail timeoutMinutes now x else x)
      st.runs
    ({ st with runs := newRuns }, stuckRuns.length)

/-! ## Lemmas about the sweep -/

theorem map_congr_mem {α β : Type} {f g : α → β} :
    ∀ {l : List α}, (∀ a ∈ l, f a = g a) → l.map f = l.map g := by
  intro l
  induction l with
  | nil => intro _; rfl
  | cons a t ih =>
    intro h
    simp only [List.map_cons]
    rw [h a (List.mem_cons_self a t), ih fun b hb => h b (List.mem_cons_of_mem a hb)]

theorem nodup_map_inj {α β : Type} {f : α → β} :
    ∀ {l : List α}, (l.map f).Nodup →
      ∀ a ∈ l, ∀ b ∈ l, f a = f b → a = b := by
  intro l
  induction l with
  | nil => intro _ a ha; simp at ha
  | cons c t ih =>
    intro hnd a ha b hb hf
    simp only [List.map_cons, List.nodup_cons] at hnd
    rcases List.mem_cons.mp ha with rfl | hat
    · rcases List.mem_cons.mp hb with rfl | hbt
      · rfl
      · exact absurd (hf ▸ List.mem_map_of_mem f hbt) hnd.1
    · rcases List.mem_cons.mp hb with rfl | hbt
      · exact absurd (hf ▸ List.mem_map_of_mem f hat) hnd.1
      · exact ih hnd.2 a hat b hbt hf

theorem sweep_foldl_eq (m now : Int) :
    ∀ (ts runs : List AgentRun),
      ts.foldl
        (fun rs r => rs.map fun x =>
          if x.id == r.id then sweepFail m now x else x) runs
      = runs.map fun x =>
          if ts.any (fun r => x.id == r.id) then sweepFail m now x else x := by
  intro ts
  induction ts with
  | nil =>
    intro runs
    simp
  | cons t ts ih =>
    intro runs
    rw [List.foldl_cons, ih, List.map_map]
    apply congrArg (fun f => List.map f runs)
    funext x
    by_cases hx : (x.id == t.id) = true
    · simp only [Function.comp, hx, if_pos trivial]
      have hid : (sweepFail m now x).id = x.id := rfl
      have hidem : sweepFail m now (sweepFail m now x) = sweepFail m now x := rfl
      simp [List.any_cons, hx, hid, hidem]
    · simp only [Function.comp, hx]
      simp [List.any_cons, hx]

/-- The net effect of the sweep on the run table, given distinct run
ids: every selected run is rewritten by `sweepFail`, every other run is
untouched, and the count is the number selected. -/
theorem sweep_char (st : Store) (accountId : String) (m now : Int)
    (hids : (st.runs.map fun r => r.id).Nodup) :
    (cleanup_stuck_agent_runs_by_timeout st accountId m now).2
      = (st.runs.filter (isStuckRun accountId (now - m * 60))).length ∧
    (cleanup_stuck_agent_runs_by_timeout st accountId m now).1.runs
      = st.runs.map fun r =>
          if isStuckRun accountId (now - m * 60) r then sweepFail m now r
          else r := by
  by_cases hemp : (st.runs.filter (isStuckRun accountId (now - m * 60))).isEmpty = true
  · have hnil : st.runs.filter (isStuckRun accountId (now - m * 60)) = [] :=
      List.isEmpty_iff.mp hemp
    have hnostuck : ∀ r ∈ st.runs, ¬ isStuckRun accountId (now - m * 60) r = true := by
      intro r hr hstuck
      have : r ∈ st.runs.filter (isStuckRun accountId (now - m * 60)) :=
        List.mem_filter.mpr ⟨hr, hstuck⟩
      rw [hnil] at this
      cases this
    constructor
    · rw [cleanup_stuck_agent_runs_by_timeout]
      simp only [hnil]
      rfl
    · rw [cleanup_stuck_agent_runs_by_timeout]
      simp only [hnil]
      have : st.runs.map (fun r =>
          if isStuckRun accountId (now - m * 60) r then sweepFail m now r else r)
          = st.runs.map fun r => r := by
        apply map_congr_mem
        intro a ha
        rw [if_neg (hnostuck a ha)]
      show st.runs = st.runs.map fun r =>
        if isStuckRun accountId (now - m * 60) r then sweepFail m now r else r
      rw [this, List.map_id']
  · have hemp' : (st.runs.filter (isStuckRun accountId (now - m * 60))).isEmpty = false := by
      cases h : (st.runs.filter (isStuckRun accountId (now - m * 60))).isEmpty
      · rfl
      · exact absurd h hemp
    constructor
    · rw [cleanup_stuck_agent_runs_by_timeout]
      simp only [hemp', Bool.false_eq_true, if_false]
    · rw [cleanup_stuck_agent_runs_by_timeout]
      simp only [hemp', Bool.false_eq_true, if_false]
      rw [sweep_foldl_eq]
      apply map_congr_mem
      intro x hx
      have hcond : (st.runs.filter (isStuckRun accountId (now - m * 60))).any
          (fun r => x.id == r.id) = isStuckRun accountId (now - m * 60) x := by
        by_cases hstuck : isStuckRun accountId (now - m * 60) x = true
        · rw [hstuck]
          exact List.any_eq_true.mpr
            ⟨x, List.mem_filter.mpr ⟨hx, hstuck⟩, by simp⟩
        · have hstuck' : isStuckRun accountId (now - m * 60) x = false := by
            cases h : isStuckRun accountId (now - m * 60) x
            · rfl
            · exact absurd h hstuck
          rw [hstuck']
          cases hany : (st.runs.filter (isStuckRun accountId (now - m * 60))).any
              (fun r => x.id == r.id) with
          | false => rfl
          | true =>
            obtain ⟨r, hrf, hbeq⟩ := List.any_eq_true.mp hany
            obtain ⟨hrmem, hrstuck⟩ := List.mem_filter.mp hrf
            have hxr : x = r := nodup_map_inj hids x hx r hrmem (eq_of_beq hbeq)
            rw [← hxr] at hrstuck
            exact (hstuck hrstuck).elim
      rw [hcond]

/-- Claim C8: given distinct run ids, the stuck-run sweep transitions
exactly the runs of the account that are running and started strictly
before `now − timeoutMinutes·60` to failed with the standardized
message and a completion time (`sweepFail`), leaves every other run
unchanged, and returns the number of runs it transitioned. -/
theorem claim_C8 (st : Store) (accountId : String) (timeoutMinutes now : Int)
    (hids : (st.runs.map fun r => r.id).Nodup) :
    (cleanup_stuck_agent_runs_by_timeout st accountId timeoutMinutes now).2
      = (st.runs.filter (isStuckRun accountId (now - timeoutMinutes * 60))).length ∧
    (cleanup_stuck_agent_runs_by_timeout st accountId timeoutMinutes now).1.runs
      = st.runs.map fun r =>
          if isStuckRun accountId (now - timeoutMinutes * 60) r then
            sweepFail timeoutMinutes now r
          else r :=
  sweep_char st accountId timeoutMinutes now hids

/-- A store with one run 31 minutes stale and one run 10 minutes old,
both running, under `now = 100000` seconds. -/
def c8Store : Store :=
  { agents := [], workflows := [], threads := [], messages := [],
    runs := [
      { id := 1, threadId := "t1", agentId := "a", accountId := "acct",
        status := RunStatus.running, startedAt := 98140, completedAt := none,
        errorMessage := none, metaTimeout := 300 },
      { id := 2, threadId := "t2", agentId := "a", accountId := "acct",
        status := RunStatus.running, startedAt := 99400, completedAt := none,
        errorMessage := none, metaTimeout := 300 }] }

/-- Claim C8 witness: with a 30-minute threshold the 31-minute-old run
is failed with the standardized message, the 10-minute-old run is
untouched, and the count is 1. -/
theorem claim_C8_witness :
    (c8Store.runs.map fun r => r.id).Nodup ∧
    ((cleanup_stuck_agent_runs_by_timeout c8Store "acct" 30 100000).2
        = (c8Store.runs.filter (isStuckRun "acct" (100000 - 30 * 60))).length ∧
      (cleanup_stuck_agent_runs_by_timeout c8Store "acct" 30 100000).1.runs
        = c8Store.runs.map fun r =>
            if isStuckRun "acct" (100000 - 30 * 60) r then sweepFail 30 100000 r
            else r) ∧
    (cleanup_stuck_agent_runs_by_timeout c8Store "acct" 30 100000).2 = 1 ∧
    ((cleanup_stuck_agent_runs_by_timeout c8Store "acct" 30 100000).1.runs.map
        fun r => (r.status, r.errorMessage))
      = [(RunStatus.failed, some (sweepErrMsg 30)),
         (RunStatus.running, none)] :=
  ⟨by decide, claim_C8 c8Store "acct" 30 100000 (by decide), by decide, by decide⟩

/-- A store holding one running run with id 1, for exercising the
finalize paths. -/
def c1Store : Store :=
  { agents := [], workflows := [], threads := [], messages := [],
    runs := [
      { id := 1, threadId := "t", agentId := "a", accountId := "acct",
        status := RunStatus.running, startedAt := 0, completedAt := none,
        errorMessage := none, metaTimeout := 300 }] }

/-- Claim C1 counterexample: finalize the run first through the
single-run cleanup (terminal error "Agent run was stuck and cleaned
up"), then through the supervisor timeout write
(`_mark_agent_run_as_failed`, "Execution timed out").  The claim says
the record keeps the FIRST writer's status and error; in fact the
unconditional timeout write overwrites them with the SECOND writer's. -/
theorem claim_C1_counterexample :
    ((cleanup_stuck_agent_run c1Store 1 50).1.runs.map fun r => r.errorMessage)
      = [some "Agent run was stuck and cleaned up"] ∧
    ((mark_agent_run_as_failed (cleanup_stuck_agent_run c1Store 1 50).1
        1 "Execution timed out" 60).runs.map fun r => r.errorMessage)
      = [some "Execution timed out"] ∧
    (some "Execution timed out" : Option String)
      ≠ some "Agent run was stuck and cleaned up" := by
  refine ⟨by decide, by decide, by decide⟩

/-- Claim C1 (amended): the single-run cleanup is idempotent on
terminal runs — it answers `true` without writing — and the reaper
sweep never rewrites a terminal run (its selection takes only
status=running, given distinct ids).  The supervisor timeout write
(`_mark_agent_run_as_failed`), however, updates unconditionally: run
second, it overwrites the first finalize's status, error message and
completion time with its own, so the surviving record equals the LAST
unconditional writer's values — though always one writer's status,
error and completion time in full, never a mix of two attempts'. -/
theorem claim_C1_amended :
    (∀ (st : Store) (agentRunId : Nat) (now : Int) (run : AgentRun),
      st.runs.find? (fun r => r.id == agentRunId) = some run →
      (run.status = RunStatus.completed ∨ run.status = RunStatus.failed) →
      cleanup_stuck_agent_run st agentRunId now = (st, true)) ∧
    (∀ (st : Store) (accountId : String) (m now : Int),
      (st.runs.map fun r => r.id).Nodup →
      ∀ r ∈ st.runs, r.status ≠ RunStatus.running →
        r ∈ (cleanup_stuck_agent_runs_by_timeout st accountId m now).1.runs) ∧
    (∀ (st : Store) (agentRunId : Nat) (msg1 : String) (t1 : Int)
        (msg2 : String) (t2 : Int),
      mark_agent_run_as_failed
          (mark_agent_run_as_failed st agentRunId msg1 t1) agentRunId msg2 t2
        = mark_agent_run_as_failed st agentRunId msg2 t2) ∧
    (∀ (st : Store) (agentRunId : Nat) (msg : String) (now : Int),
      ∀ r ∈ (mark_agent_run_as_failed st agentRunId msg now).runs,
        r.id = agentRunId →
        r.status = RunStatus.failed ∧ r.errorMessage = some msg ∧
          r.completedAt = some now) := by
  refine ⟨?_, ?_, ?_, ?_⟩
  · intro st agentRunId now run hfind hterm
    rw [cleanup_stuck_agent_run, hfind]
    show (if run.status = RunStatus.completed ∨ run.status = RunStatus.failed
        then (st, true)
        else (mark_agent_run_as_failed st agentRunId
          "Agent run was stuck and cleaned up" now, true)) = (st, true)
    rw [if_pos hterm]
  · intro st accountId m now hids r hr hrs
    have hchar := (sweep_char st accountId m now hids).2
    rw [hchar]
    have : (if isStuckRun accountId (now - m * 60) r then sweepFail m now r
        else r) = r := by
      rw [if_neg]
      intro hstuck
      rw [isStuckRun, Bool.and_eq_true, Bool.and_eq_true] at hstuck
      exact hrs (of_decide_eq_true hstuck.1.2)
    rw [← this]
    exact List.mem_map_of_mem _ hr
  · intro st agentRunId msg1 t1 msg2 t2
    rw [mark_agent_run_as_failed, mark_agent_run_as_failed,
      mark_agent_run_as_failed, List.map_map]
    apply congrArg
    apply congrArg (fun f => List.map f st.runs)
    funext x
    by_cases hx : (x.id == agentRunId) = true
    · simp only [Function.comp]
      simp [hx]
    · simp only [Function.comp]
      simp [hx]
  · intro st agentRunId msg now r hr hid
    rw [mark_agent_run_as_failed] at hr
    obtain ⟨x, hx, hfx⟩ := List.mem_map.mp hr
    by_cases hxid : (x.id == agentRunId) = true
    · rw [if_pos hxid] at hfx
      rw [← hfx]
      exact ⟨rfl, rfl, rfl⟩
    · rw [if_neg hxid] at hfx
      rw [← hfx] at hid
      exact absurd (beq_iff_eq.mpr hid) hxid

/-- An already-completed run with id 1. -/
def c1DoneRun : AgentRun :=
  { id := 1, threadId := "t", agentId := "a", accountId := "acct",
    status := RunStatus.completed, startedAt := 0, completedAt := some 9,
    errorMessage := none, metaTimeout := 300 }

/-- A store holding only `c1DoneRun`. -/
def c1DoneStore : Store :=
  { agents := [], workflows := [], threads := [], messages := [],
    runs := [c1DoneRun] }

/-- Claim C1 (amended) witness: a completed run survives cleanup
untouched; the double mark keeps only the second message; the mark
rewrites every field of the matching run. -/
theorem claim_C1_amended_witness :
    cleanup_stuck_agent_run c1DoneStore 1 50 = (c1DoneStore, true) ∧
    mark_agent_run_as_failed (mark_agent_run_as_failed c1Store 1 "first" 1)
        1 "second" 2
      = mark_agent_run_as_failed c1Store 1 "second" 2 ∧
    ∀ r ∈ (mark_agent_run_as_failed c1Store 1 "second" 2).runs, r.id = 1 →
      r.status = RunStatus.failed ∧ r.errorMessage = some "second" ∧
        r.completedAt = some 2 :=
  ⟨claim_C1_amended.1 c1DoneStore 1 50 c1DoneRun (by decide) (by decide),
   claim_C1_amended.2.2.1 c1Store 1 "first" 1 "second" 2,
   claim_C1_amended.2.2.2 c1Store 1 "second" 2⟩

/-! ## DelegatedRunSupervisor: the execution pipeline
(`call_agent`, `_execute_agent_workflow`, `_execute_agent_prompt`,
`_execute_agent_with_thread`, `_get_agent_execution_result`) -/

/-- The identity of the calling tool instance (`self.project_id`,
`self.account_id`). -/
structure CallCtx where
  projectId : String
  accountId : String
deriving DecidableEq, Repr

/-- The environmental inputs of one delegated execution: generated
UUIDs, the store-assigned run id, clock reads, whether the optional
workflow execution service imports and what it returns, whether the
background runner imports, and the awaited task's outcome —
`taskOutcome = none` means `asyncio.wait_for` raised `TimeoutError`,
`taskOutcome = some st` means the task finished inside the timeout
leaving the store at `st`.  `shutdownCompletes` records whether the
cancelled runtime's own shutdown ever completes; the code never awaits
it, so no result below depends on it. -/
structure ExecEnv where
  svcAvailable : Bool
  svcSuccess : Bool
  svcOutput : Option String
  svcError : Option String
  bgAvailable : Bool
  threadId : String
  messageId : String
  runId : Nat
  startTime : Int
  failTime : Int
  taskOutcome : Option Store
  shutdownCompletes : Bool
deriving Repr

/-- What `_execute_agent_with_thread` leaves behind: the store, whether
`background_task.cancel()` was called, and the returned string. -/
structure ExecResult where
  store : Store
  cancelSent : Bool
  result : String
deriving Repr

/-- `AgentExecutionTool._get_agent_execution_result`: read the run's
terminal state, then the last assistant message of the thread,
hard-truncating persisted text beyond 2000 characters to 1900 plus an
elision marker. -/
def get_agent_execution_result (st : Store) (agentRunId : Nat)
    (threadId : String) : String :=
  match st.runs.find? (fun r => r.id == agentRunId) with
  | none => "Error: Could not find agent run record"
  | some run =>
    if run.status = RunStatus.failed then
      "Agent execution failed: " ++ run.errorMessage.getD "Unknown error"
    else if run.status ≠ RunStatus.completed then
      "Agent execution incomplete (status: " ++ statusStr run.status ++ ")"
    else
      let msgs := st.messages.filter
        (fun m => m.threadId == threadId && m.msgType == "assistant")
      match msgs.getLast? with
      | none => "Agent completed but no response messages found"
      | some lastMsg =>
        let result :=
          if 2000 < lastMsg.content.length then
            lastMsg.content.take 1900 ++
              "\n\n[... response truncated for brevity ...]"
          else lastMsg.content
        "Agent execution completed successfully:\n\n" ++ result

/-- `AgentExecutionTool._execute_agent_with_thread`: insert the thread,
the seed message (with the workflow banner when given), and the running
AgentRun; then, if the background runner imports and the agent row
exists, await the background task under the timeout — a finish inside
the timeout reads the result from the task's final store, a timeout
cancels the task (advisory), unconditionally marks the run failed with
"Execution timed out", and returns the standardized timeout error.
The model name reaches only the run metadata and the runtime start,
neither of which this model observes, so the parameter is carried but
unused. -/
def execute_agent_with_thread (ctx : CallCtx) (st : Store)
    (agentId message modelName : String) (timeout : Int)
    (workflow : Option Workflow) (env : ExecEnv) : ExecResult :=
  let thread : Thread :=
    { threadId := env.threadId, accountId := ctx.accountId,
      projectId := ctx.projectId }
  let st1 : Store := { st with threads := st.threads ++ [thread] }
  let finalMessage :=
    match workflow with
    | some w =>
      "Executing workflow \x27" ++ w.name ++ "\x27" ++
        (match w.description with
         | some d => if !d.toList.isEmpty then ": " ++ d else ""
         | none => "") ++
        "\n\nUser message: " ++ message
    | none => message
  let seedMsg : Message :=
    { messageId := env.messageId, threadId := env.threadId,
      content := finalMessage, msgType := "user" }
  let st2 : Store := { st1 with messages := st1.messages ++ [seedMsg] }
  let run : AgentRun :=
    { id := env.runId, threadId := env.threadId, agentId := agentId,
      accountId := ctx.accountId, status := RunStatus.running,
      startedAt := env.startTime, completedAt := none,
      errorMessage := none, metaTimeout := timeout }
  let st3 : Store := { st2 with runs := st2.runs ++ [run] }
  if env.bgAvailable = false then
    { store := st3, cancelSent := false,
      result := "Error: Agent execution service unavailable" }
  else
    match st3.agents.find? (fun a => a.agentId == agentId) with
    | none =>
      { store := st3, cancelSent := false,
        result := "Error: Agent " ++ agentId ++ " not found" }
    | some _ =>
      match env.taskOutcome with
      | some stAfter =>
        { store := stAfter, cancelSent := false,
          result := get_agent_execution_result stAfter env.runId env.threadId }
      | none =>
        { store := mark_agent_run_as_failed st3 env.runId
            "Execution timed out" env.failTime,
          cancelSent := true,
          result := "Error: Agent execution timed out after " ++
            toString timeout ++
            " seconds. The agent may be stuck or taking too long to respond." }

/-- `AgentExecutionTool._execute_agent_prompt`: thread-backed execution
with no workflow context. -/
def execute_agent_prompt (ctx : CallCtx) (st : Store)
    (agentId message modelName : String) (timeout : Int) (env : ExecEnv) :
    Store × String :=
  let r := execute_agent_with_thread ctx st agentId message modelName
    timeout none env
  (r.store, r.result)

/-- `AgentExecutionTool._execute_agent_workflow`: look the workflow up
by id and owning agent; missing or inactive workflows fail fast before
any record is created; an active workflow runs through the execution
service when it imports, else falls back to thread-backed execution. -/
def execute_agent_workflow (ctx : CallCtx) (st : Store)
    (agentId workflowId message modelName : String) (timeout : Int)
    (env : ExecEnv) : Store × String :=
  match st.workflows.find? (fun w => w.id == workflowId && w.agentId == agentId) with
  | none =>
    (st, "Error: Workflow " ++ workflowId ++ " not found for agent " ++ agentId)
  | some w =>
    if w.status != "active" then
      (st, "Error: Workflow " ++ w.name ++ " is not active (status: " ++
        w.status ++ ")")
    else if env.svcAvailable then
      if env.svcSuccess then
        (st, env.svcOutput.getD
          ("Workflow \x27" ++ w.name ++ "\x27 executed successfully"))
      else
        (st, "Workflow execution failed: " ++ env.svcError.getD "Unknown error")
    else
      let r := execute_agent_with_thread ctx st agentId message modelName
        timeout (some w) env
      (r.store, r.result)

/-- `timeout = max(60, min(1800, timeout))` in `call_agent`. -/
def clampTimeout (timeout : Int) : Int := max 60 (min 1800 timeout)

/-- `max_tokens = max(100, min(4000, max_tokens))` in `call_agent`. -/
def clampMaxTokens (maxTokens : Int) : Int := max 100 (min 4000 maxTokens)

/-- The `response_data` dictionary `call_agent` builds (the timestamp
field, a wall-clock read, is omitted). -/
structure ResponseData where
  agentId : String
  executionMode : String
  workflowId : Option String
  modelUsed : String
  outputMode : String
  maxTokens : Int
  status : String
  result : String
  rawResult : Option String
deriving DecidableEq, Repr

/-- A `ToolResult`: early validation and exception paths fail with a
plain string; the classification stage fails or succeeds with a full
`response_data`. -/
inductive ToolResult where
  | fail (message : String)
  | failData (data : ResponseData)
  | ok (data : ResponseData)
deriving DecidableEq, Repr

/-- The result-classification tail of `call_agent` (lines 192–233): a
raw result containing "Error:" is returned verbatim as a failed
response, skipping post-processing; anything else is post-processed per
the output mode and returned as completed, echoing the raw result only
in last_message mode. -/
def classify_and_respond (agentId executionMode : String)
    (workflowId : Option String) (modelUsed outputMode : String)
    (maxTokens : Int) (rawResult : String) : ToolResult :=
  if containsS rawResult "Error:" then
    ToolResult.failData
      { agentId := agentId, executionMode := executionMode,
        workflowId := if executionMode == "workflow" then workflowId else none,
        modelUsed := modelUsed, outputMode := outputMode,
        maxTokens := maxTokens, status := "failed", result := rawResult,
        rawResult := none }
  else
    let processedResult :=
      if outputMode == "last_message" then
        String.mk (extract_last_message rawResult.toList)
      else if outputMode == "full" then
        String.mk (truncate_from_end rawResult.toList maxTokens)
      else rawResult
    ToolResult.ok
      { agentId := agentId, executionMode := executionMode,
        workflowId := if executionMode == "workflow" then workflowId else none,
        modelUsed := modelUsed, outputMode := outputMode,
        maxTokens := maxTokens, status := "completed",
        result := processedResult,
        rawResult := if outputMode == "last_message" then some rawResult
          else none }

/-- `AgentExecutionTool.call_agent`: validate the mode and workflow id,
verify agent access (a failed check raises `ValueError`, caught and
returned as "Error calling agent: ..."), resolve the model, clamp the
timeout and token budget, default the output mode, execute, and
classify the raw result. -/
def call_agent (ctx : CallCtx) (st : Store)
    (agentId message executionMode : String) (workflowId : Option String)
    (modelName : Option String) (timeout maxTokens : Int)
    (outputMode : String) (env : ExecEnv) : Store × ToolResult :=
  if executionMode != "prompt" && executionMode != "workflow" then
    (st, ToolResult.fail
      "Error: execution_mode must be either \x27prompt\x27 or \x27workflow\x27")
  else if executionMode == "workflow" && workflowId.isNone then
    (st, ToolResult.fail
      "Error: workflow_id is required when execution_mode is \x27workflow\x27")
  else if (st.agents.find?
      (fun a => a.agentId == agentId && a.accountId == ctx.accountId)).isNone then
    (st, ToolResult.fail "Error calling agent: Agent not found or access denied")
  else
    let modelUsed := get_fallback_model modelName
    let timeoutEff := clampTimeout timeout
    let maxTokensEff := clampMaxTokens maxTokens
    let outputModeEff :=
      if outputMode != "last_message" && outputMode != "full" then
        "last_message"
      else outputMode
    let execOut :=
      if executionMode == "workflow" then
        execute_agent_workflow ctx st agentId (workflowId.getD "") message
          modelUsed timeoutEff env
      else
        execute_agent_prompt ctx st agentId message modelUsed timeoutEff env
    (execOut.1,
     classify_and_respond agentId executionMode workflowId modelUsed
       outputModeEff maxTokensEff execOut.2)

/-! ## Containment lemmas on `String` -/

theorem toList_append (a b : String) : (a ++ b).toList = a.toList ++ b.toList :=
  rfl

theorem containsS_append_of_left (a b pat : String)
    (h : containsS a pat = true) : containsS (a ++ b) pat = true := by
  unfold containsS at h ⊢
  rw [toList_append]
  exact containsL_append_left _ _ _ h

theorem containsS_append_of_right (a b pat : String)
    (h : containsS b pat = true) : containsS (a ++ b) pat = true := by
  unfold containsS at h ⊢
  rw [toList_append]
  exact containsL_append_right _ _ _ h

/-- Claim C2: when the background task does not finish within the
timeout (`taskOutcome = none`), the supervisor records status=failed on
the run with the standardized "Execution timed out" message (which
contains "timed out") and a completion time, sends the advisory
cancellation, and returns a failure result (an "Error:" string
mentioning the timeout) — all independent of whether the cancelled
runtime's own shutdown ever completes. -/
theorem claim_C2 (ctx : CallCtx) (st : Store)
    (agentId message modelName : String) (timeout : Int)
    (workflow : Option Workflow) (env : ExecEnv) (b : Bool)
    (hbg : env.bgAvailable = true)
    (hnone : env.taskOutcome = none)
    (hagent : (st.agents.find? (fun a => a.agentId == agentId)).isSome = true) :
    (∃ r, r ∈ (execute_agent_with_thread ctx st agentId message modelName
        timeout workflow env).store.runs ∧ r.id = env.runId) ∧
    (∀ r ∈ (execute_agent_with_thread ctx st agentId message modelName
        timeout workflow env).store.runs, r.id = env.runId →
      r.status = RunStatus.failed ∧
      r.errorMessage = some "Execution timed out" ∧
      containsS (r.errorMessage.getD "") "timed out" = true ∧
      r.completedAt = some env.failTime) ∧
    (execute_agent_with_thread ctx st agentId message modelName timeout
        workflow env).cancelSent = true ∧
    containsS (execute_agent_with_thread ctx st agentId message modelName
        timeout workflow env).result "timed out" = true ∧
    containsS (execute_agent_with_thread ctx st agentId message modelName
        timeout workflow env).result "Error:" = true ∧
    execute_agent_with_thread ctx st agentId message modelName timeout
        workflow { env with shutdownCompletes := b }
      = execute_agent_with_thread ctx st agentId message modelName timeout
          workflow env := by
  obtain ⟨a, ha⟩ := Option.isSome_iff_exists.mp hagent
  refine ⟨?_, ?_, ?_, ?_, ?_, rfl⟩
  · simp only [execute_agent_with_thread, hbg, hnone, ha,
      mark_agent_run_as_failed]
    refine ⟨_, List.mem_map_of_mem _
      (List.mem_append_right _ (List.mem_singleton_self _)), ?_⟩
    simp
  · simp only [execute_agent_with_thread, hbg, hnone, ha,
      mark_agent_run_as_failed]
    intro r hr hid
    obtain ⟨x, hx, hfx⟩ := List.mem_map.mp hr
    by_cases hxid : (x.id == env.runId) = true
    · rw [if_pos hxid] at hfx
      rw [← hfx]
      exact ⟨rfl, rfl,
        (by decide : containsS "Execution timed out" "timed out" = true), rfl⟩
    · rw [if_neg hxid] at hfx
      rw [← hfx] at hid
      exact absurd (beq_iff_eq.mpr hid) hxid
  · simp only [execute_agent_with_thread, hbg, hnone, ha]
    rfl
  · simp only [execute_agent_with_thread, hbg, hnone, ha]
    show containsS ("Error: Agent execution timed out after " ++
      toString timeout ++
      " seconds. The agent may be stuck or taking too long to respond.")
      "timed out" = true
    apply containsS_append_of_left
    apply containsS_append_of_left
    decide
  · simp only [execute_agent_with_thread, hbg, hnone, ha]
    show containsS ("Error: Agent execution timed out after " ++
      toString timeout ++
      " seconds. The agent may be stuck or taking too long to respond.")
      "Error:" = true
    apply containsS_append_of_left
    apply containsS_append_of_left
    decide

/-- A caller identity for concrete runs of the pipeline. -/
def sampleCtx : CallCtx := { projectId := "p", accountId := "acct" }

/-- A store holding one accessible agent and nothing else. -/
def c2Store : Store :=
  { agents := [{ agentId := "a1", accountId := "acct" }],
    workflows := [], threads := [], messages := [], runs := [] }

/-- An environment whose background task times out. -/
def c2Env : ExecEnv :=
  { svcAvailable := false, svcSuccess := false, svcOutput := none,
    svcError := none, bgAvailable := true, threadId := "th",
    messageId := "m1", runId := 7, startTime := 10, failTime := 20,
    taskOutcome := none, shutdownCompletes := false }

/-- Claim C2 witness: a concrete timed-out delegation. -/
theorem claim_C2_witness :
    (∃ r, r ∈ (execute_agent_with_thread sampleCtx c2Store "a1" "hi" "m"
        300 none c2Env).store.runs ∧ r.id = c2Env.runId) ∧
    (∀ r ∈ (execute_agent_with_thread sampleCtx c2Store "a1" "hi" "m"
        300 none c2Env).store.runs, r.id = c2Env.runId →
      r.status = RunStatus.failed ∧
      r.errorMessage = some "Execution timed out" ∧
      containsS (r.errorMessage.getD "") "timed out" = true ∧
      r.completedAt = some c2Env.failTime) ∧
    (execute_agent_with_thread sampleCtx c2Store "a1" "hi" "m"
        300 none c2Env).cancelSent = true ∧
    containsS (execute_agent_with_thread sampleCtx c2Store "a1" "hi" "m"
        300 none c2Env).result "timed out" = true ∧
    containsS (execute_agent_with_thread sampleCtx c2Store "a1" "hi" "m"
        300 none c2Env).result "Error:" = true ∧
    execute_agent_with_thread sampleCtx c2Store "a1" "hi" "m" 300 none
        { c2Env with shutdownCompletes := true }
      = execute_agent_with_thread sampleCtx c2Store "a1" "hi" "m" 300 none
          c2Env :=
  claim_C2 sampleCtx c2Store "a1" "hi" "m" 300 none c2Env true rfl rfl
    (by decide)

/-- Claim C3: the effective timeout is the requested one clamped into
[60, 1800], the effective token budget is the requested one clamped
into [100, 4000], and out-of-range values are never rejected —
`call_agent` behaves identically to a call made with the clamped
values, on every input and path. -/
theorem claim_C3 :
    (∀ t : Int, (t < 60 → clampTimeout t = 60) ∧
      (1800 < t → clampTimeout t = 1800) ∧
      (60 ≤ t → t ≤ 1800 → clampTimeout t = t)) ∧
    (∀ m : Int, (m < 100 → clampMaxTokens m = 100) ∧
      (4000 < m → clampMaxTokens m = 4000) ∧
      (100 ≤ m → m ≤ 4000 → clampMaxTokens m = m)) ∧
    (∀ (ctx : CallCtx) (st : Store) (agentId message executionMode : String)
        (workflowId : Option String) (modelName : Option String)
        (timeout maxTokens : Int) (outputMode : String) (env : ExecEnv),
      call_agent ctx st agentId message executionMode workflowId modelName
          timeout maxTokens outputMode env
        = call_agent ctx st agentId message executionMode workflowId modelName
            (clampTimeout timeout) (clampMaxTokens maxTokens) outputMode env) := by
  refine ⟨?_, ?_, ?_⟩
  · intro t
    refine ⟨fun h => ?_, fun h => ?_, fun h1 h2 => ?_⟩ <;>
      (unfold clampTimeout; omega)
  · intro m
    refine ⟨fun h => ?_, fun h => ?_, fun h1 h2 => ?_⟩ <;>
      (unfold clampMaxTokens; omega)
  · intro ctx st agentId message executionMode workflowId modelName timeout
      maxTokens outputMode env
    have hT : clampTimeout (clampTimeout timeout) = clampTimeout timeout := by
      unfold clampTimeout; omega
    have hM : clampMaxTokens (clampMaxTokens maxTokens)
        = clampMaxTokens maxTokens := by
      unfold clampMaxTokens; omega
    simp only [call_agent, hT, hM]

/-- Claim C3 witness: the boundary clamps and the equal-behavior
equation at an out-of-range request. -/
theorem claim_C3_witness :
    clampTimeout 5 = 60 ∧ clampTimeout 9000 = 1800 ∧
    clampTimeout 300 = 300 ∧ clampMaxTokens 50 = 100 ∧
    clampMaxTokens 9999 = 4000 ∧
    call_agent sampleCtx c2Store "a1" "hi" "prompt" none none 5 50
        "last_message" c2Env
      = call_agent sampleCtx c2Store "a1" "hi" "prompt" none none
          (clampTimeout 5) (clampMaxTokens 50) "last_message" c2Env :=
  ⟨(claim_C3.1 5).1 (by decide), (claim_C3.1 9000).2.1 (by decide),
   (claim_C3.1 300).2.2 (by decide) (by decide),
   (claim_C3.2.1 50).1 (by decide), (claim_C3.2.1 9999).2.1 (by decide),
   claim_C3.2.2 sampleCtx c2Store "a1" "hi" "prompt" none none 5 50
     "last_message" c2Env⟩

/-- Claim C4: a workflow-mode invocation whose target workflow exists
for the agent but is not active fails fast — `call_agent` returns a
failed response whose result is the inactive-workflow error, and the
store (threads, messages, runs, everything) is returned unchanged: no
record is created. -/
theorem claim_C4 (ctx : CallCtx) (st : Store)
    (agentId message wid : String) (modelName : Option String)
    (timeout maxTokens : Int) (outputMode : String) (env : ExecEnv)
    (w : Workflow)
    (hacc : (st.agents.find?
      (fun a => a.agentId == agentId && a.accountId == ctx.accountId)).isSome = true)
    (hwf : st.workflows.find?
      (fun x => x.id == wid && x.agentId == agentId) = some w)
    (hst : w.status ≠ "active") :
    (call_agent ctx st agentId message "workflow" (some wid) modelName
        timeout maxTokens outputMode env).1 = st ∧
    ∃ d, (call_agent ctx st agentId message "workflow" (some wid) modelName
        timeout maxTokens outputMode env).2 = ToolResult.failData d ∧
      d.status = "failed" ∧
      d.result = "Error: Workflow " ++ w.name ++ " is not active (status: " ++
        w.status ++ ")" ∧
      containsS d.result "Error:" = true ∧
      containsS d.result "is not active" = true := by
  obtain ⟨a, ha⟩ := Option.isSome_iff_exists.mp hacc
  have herr : containsS ("Error: Workflow " ++ w.name ++
      " is not active (status: " ++ w.status ++ ")") "Error:" = true := by
    apply containsS_append_of_left
    apply containsS_append_of_left
    apply containsS_append_of_left
    apply containsS_append_of_left
    decide
  have hmid : containsS ("Error: Workflow " ++ w.name ++
      " is not active (status: " ++ w.status ++ ")") "is not active" = true := by
    apply containsS_append_of_left
    apply containsS_append_of_left
    apply containsS_append_of_right
    decide
  have hexec : execute_agent_workflow ctx st agentId wid message
      (get_fallback_model modelName) (clampTimeout timeout) env
      = (st, "Error: Workflow " ++ w.name ++ " is not active (status: " ++
          w.status ++ ")") := by
    simp only [execute_agent_workflow, hwf]
    rw [if_pos (bne_iff_ne.mpr hst)]
  have hcall : call_agent ctx st agentId message "workflow" (some wid)
      modelName timeout maxTokens outputMode env
      = (st, classify_and_respond agentId "workflow" (some wid)
          (get_fallback_model modelName)
          (if outputMode != "last_message" && outputMode != "full" then
            "last_message" else outputMode)
          (clampMaxTokens maxTokens)
          ("Error: Workflow " ++ w.name ++ " is not active (status: " ++
            w.status ++ ")")) := by
    simp only [call_agent, ha]
    rw [if_neg (by decide), if_neg (by simp),
      if_neg (by simp)]
    simp only [Option.getD_some]
    rw [if_pos (by decide : (("workflow" : String) == "workflow") = true)]
    rw [hexec]
  rw [hcall]
  refine ⟨rfl, ?_⟩
  rw [classify_and_respond, if_pos herr]
  exact ⟨_, rfl, rfl, rfl, herr, hmid⟩

/-- An inactive (draft) workflow owned by agent a1. -/
def c4Workflow : Workflow :=
  { id := "wf1", agentId := "a1", name := "Weekly", description := none,
    status := "draft" }

/-- A store holding one accessible agent and one inactive workflow. -/
def c4Store : Store :=
  { agents := [{ agentId := "a1", accountId := "acct" }],
    workflows := [c4Workflow], threads := [], messages := [], runs := [] }

/-- Claim C4 witness: invoking the draft workflow fails fast and leaves
the store untouched. -/
theorem claim_C4_witness :
    (call_agent sampleCtx c4Store "a1" "go" "workflow" (some "wf1") none 300
        1000 "last_message" c2Env).1 = c4Store ∧
    ∃ d, (call_agent sampleCtx c4Store "a1" "go" "workflow" (some "wf1") none
        300 1000 "last_message" c2Env).2 = ToolResult.failData d ∧
      d.status = "failed" ∧
      d.result = "Error: Workflow " ++ c4Workflow.name ++
        " is not active (status: " ++ c4Workflow.status ++ ")" ∧
      containsS d.result "Error:" = true ∧
      containsS d.result "is not active" = true :=
  claim_C4 sampleCtx c4Store "a1" "go" "wf1" none 300 1000 "last_message"
    c2Env c4Workflow (by decide) (by decide) (by decide)

/-- Claim C9: the classification stage of `call_agent` decides the
outcome solely by whether the raw execution result contains "Error:" —
any raw result containing it becomes a failed response whose result is
the raw text, with no last-message or full post-processing; any raw
result without it becomes a completed response with the post-processed
text.  In particular a successfully completed run whose transcript
mentions "Error:" is reported as failed. -/
theorem claim_C9 (agentId executionMode : String) (workflowId : Option String)
    (modelUsed outputMode : String) (maxTokens : Int) (rawResult : String) :
    (containsS rawResult "Error:" = true →
      classify_and_respond agentId executionMode workflowId modelUsed
          outputMode maxTokens rawResult
        = ToolResult.failData
            { agentId := agentId, executionMode := executionMode,
              workflowId := if executionMode == "workflow" then workflowId
                else none,
              modelUsed := modelUsed, outputMode := outputMode,
              maxTokens := maxTokens, status := "failed",
              result := rawResult, rawResult := none }) ∧
    (containsS rawResult "Error:" = false →
      ∃ d, classify_and_respond agentId executionMode workflowId modelUsed
          outputMode maxTokens rawResult = ToolResult.ok d ∧
        d.status = "completed" ∧
        d.result = (if outputMode == "last_message" then
            String.mk (extract_last_message rawResult.toList)
          else if outputMode == "full" then
            String.mk (truncate_from_end rawResult.toList maxTokens)
          else rawResult)) := by
  constructor
  · intro h
    rw [classify_and_respond, if_pos h]
  · intro h
    rw [classify_and_respond, if_neg (by rw [h]; exact Bool.false_ne_true)]
    exact ⟨_, rfl, rfl, rfl⟩

/-- Claim C9 witness: a transcript mentioning "Error:" is classified
failed and returned raw; a clean transcript is classified completed. -/
theorem claim_C9_witness :
    classify_and_respond "a1" "prompt" none "m" "last_message" 1000
        "Task complete. Error: ignore"
      = ToolResult.failData
          { agentId := "a1", executionMode := "prompt", workflowId := none,
            modelUsed := "m", outputMode := "last_message",
            maxTokens := 1000, status := "failed",
            result := "Task complete. Error: ignore", rawResult := none } ∧
    ∃ d, classify_and_respond "a1" "prompt" none "m" "last_message" 1000
        "pong" = ToolResult.ok d ∧
      d.status = "completed" ∧
      d.result = (if ("last_message" : String) == "last_message" then
          String.mk (extract_last_message "pong".toList)
        else if ("last_message" : String) == "full" then
          String.mk (truncate_from_end "pong".toList 1000)
        else "pong") :=
  ⟨(claim_C9 "a1" "prompt" none "m" "last_message" 1000
      "Task complete. Error: ignore").1 (by decide),
   (claim_C9 "a1" "prompt" none "m" "last_message" 1000 "pong").2 (by decide)⟩
